import Mathlib

/-!
Verification of the session-management proxy (posit_app_token_gen.py).

The development shallowly embeds the pure content of the Python source:
JSON dictionaries become association lists over `String` keys, Python
truthiness is made explicit, fallible calls (HTTP exceptions, subprocess
failures) become `Except`-valued inputs or results, and the two cached
file loaders become explicit state-passing functions.
-/

namespace PositApi

/-! ### Association-list dictionaries

Python `dict` objects keyed by strings are embedded as association
lists; `dlookup` is `dict.get` and `dinsert` is item assignment
(replace the value at an existing key, else append a new entry). -/

def dlookup {α : Type} (k : String) : List (String × α) → Option α
  | [] => none
  | (k₁, v) :: rest => if k₁ = k then some v else dlookup k rest

def dinsert {α : Type} (k : String) (v : α) : List (String × α) → List (String × α)
  | [] => [(k, v)]
  | (k₁, v₁) :: rest => if k₁ = k then (k₁, v) :: rest else (k₁, v₁) :: dinsert k v rest

/-! ### Enumerations and data model (posit_app_token_gen.py lines 16-57) -/

instance instDecEqExcept {ε α : Type} [DecidableEq ε] [DecidableEq α] :
    DecidableEq (Except ε α)
  | .error e₁, .error e₂ =>
    if h : e₁ = e₂ then isTrue (by rw [h]) else isFalse (fun hc => h (Except.error.inj hc))
  | .error _, .ok _ => isFalse (fun hc => Except.noConfusion hc)
  | .ok _, .error _ => isFalse (fun hc => Except.noConfusion hc)
  | .ok a₁, .ok a₂ =>
    if h : a₁ = a₂ then isTrue (by rw [h]) else isFalse (fun hc => h (Except.ok.inj hc))

inductive Environment : Type
  | DEV
  | UAT
  | PROD
deriving DecidableEq, Repr

def Environment.value : Environment → String
  | .DEV => "DEV"
  | .UAT => "UAT"
  | .PROD => "PROD"

inductive Project : Type
  | PROJECT1
  | PROJECT2
deriving DecidableEq, Repr

def Project.value : Project → String
  | .PROJECT1 => "PROJECT1"
  | .PROJECT2 => "PROJECT2"

structure SessionInfo where
  session_id : String
  url : String
  session_name : String
  display_name : String
deriving DecidableEq, Repr

/-- Token store: project name, then environment name, then username, then
token string (the JSON shape of tokens.json). -/
abbrev EnvMap := List (String × String)

abbrev ProjMap := List (String × EnvMap)

abbrev Store := List (String × ProjMap)

instance instDecEqProjMap : DecidableEq ProjMap := List.hasDecEq

instance instDecEqProjMapEntry : DecidableEq (String × ProjMap) := instDecidableEqProd

instance instDecEqStore : DecidableEq Store := List.hasDecEq

/-- ENV_PROJECT_MAP from lines 91-104, as a total function on the enums. -/
def ENV_PROJECT_MAP (env : Environment) (project : Project) : String :=
  match env, project with
  | .DEV, .PROJECT1 => "dev-project1.example.com"
  | .DEV, .PROJECT2 => "dev-project2.example.com"
  | .UAT, .PROJECT1 => "uat-project1.example.com"
  | .UAT, .PROJECT2 => "uat-project2.example.com"
  | .PROD, .PROJECT1 => "prod-project1.example.com"
  | .PROD, .PROJECT2 => "prod-project2.example.com"

/-- get_base_url (lines 114-122): raises HTTP 400 when the looked-up base
URL is falsy, which never happens for the configured map. -/
def get_base_url (env : Environment) (project : Project) : Except Nat String :=
  let base_url := ENV_PROJECT_MAP env project
  if base_url = "" then .error 400 else .ok base_url

/-- format_base_url (lines 124-128). -/
def format_base_url (base_url : String) : String :=
  if base_url.startsWith "http://" || base_url.startsWith "https://" then base_url
  else "https://" ++ base_url

/-! ### Session-number generation (lines 531-551)

The regex `JupyterLab Session (\d+)` anchored at both ends is embedded
over the character list of the display name: the fixed header followed by
a nonempty run of decimal digits.  `charsToNat` is Python `int` on a
digit string. -/

def headerChars : List Char := "JupyterLab Session ".toList

def charsToNat (s : List Char) : Nat :=
  s.foldl (fun n c => n * 10 + (c.toNat - 48)) 0

/-- parseSessionNumber embeds `pattern.match` plus `int(match.group(1))`
from get_next_available_session_number: `some k` exactly when the display
name matches the anchored regex and its digit group reads as `k`. -/
def parseSessionNumber (name : String) : Option Nat :=
  let cs := name.toList
  if headerChars.isPrefixOf cs then
    let rest := cs.drop headerChars.length
    if rest ≠ [] ∧ rest.all Char.isDigit then some (charsToNat rest) else none
  else none

/-- Used session numbers collected from the existing sessions (the set
`used_numbers` of lines 537-544, as a list). -/
def usedNumbers (existing_sessions : List SessionInfo) : List Nat :=
  existing_sessions.filterMap (fun s => parseSessionNumber s.display_name)

/-- One step-bounded unfolding of the `while next_number in used_numbers`
loop of lines 547-549; the fuel is made explicit so that the function is
structurally recursive, and `get_next_available_session_number` supplies
enough fuel for the loop to finish (see `whileNext_spec`). -/
def whileNext (used : List Nat) : Nat → Nat → Nat
  | 0, n => n
  | fuel + 1, n => if n ∈ used then whileNext used fuel (n + 1) else n

/-- get_next_available_session_number (lines 531-551). -/
def get_next_available_session_number (existing_sessions : List SessionInfo) : Nat :=
  let used := usedNumbers existing_sessions
  whileNext used (used.length + 1) 1

/-! ### Group configuration and access checks (lines 335-436)

The group-config JSON holds, under its top-level key "project_name", a
dictionary project name -> environment name -> environment entry, where
the environment entry's "groups" key (when present) is either a single
string or a list of strings. -/

inductive GroupsVal : Type
  | gstr (s : String)
  | glist (l : List String)
deriving DecidableEq, Repr

/-- An environment entry of the group config; `groups = none` embeds an
entry whose "groups" key is absent (lines 397 and 423 default it to []). -/
structure EnvCfg where
  groups : Option GroupsVal
deriving DecidableEq, Repr

abbrev ProjCfg := List (String × EnvCfg)

abbrev ProjectConfigs := List (String × ProjCfg)

/-- The group-config JSON object; `project_name = none` embeds a file with
no "project_name" key (line 419 defaults it to an empty dict). -/
structure GroupConfig where
  project_name : Option ProjectConfigs
deriving DecidableEq, Repr

/-- Normalization of a "groups" entry performed at lines 397-401 and
423-427: a missing entry yields [], a bare string becomes a one-element
list, and a list is kept as is. -/
def normalizeGroups : Option GroupsVal → List String
  | none => []
  | some (.gstr s) => [s]
  | some (.glist l) => l

/-- The required-groups entry the code reads for a project/environment
pair (lines 419-427): project_name -> project -> env -> "groups",
each level defaulting to empty when absent. -/
def requiredGroupsAt (cfg : GroupConfig) (project env : String) : List String :=
  let project_configs := cfg.project_name.getD []
  let project_config := (dlookup project project_configs).getD []
  let env_config := (dlookup env project_config).getD ⟨none⟩
  normalizeGroups env_config.groups

/-- check_project_access (lines 392-407): the environments of one project
config whose required groups meet the user's groups. -/
def check_project_access (user_groups : List String) (project_config : ProjCfg) : List String :=
  (project_config.filter (fun p =>
    (normalizeGroups p.2.groups).any (fun g => user_groups.contains g))).map Prod.fst

/-- check_user_access_for_launch (lines 409-436).  The results of
load_group_config and get_user_groups are passed in as `Except` values,
`.error c` embedding a raised exception; the catch-all at lines 434-436
turns any such failure into `false`. -/
def check_user_access_for_launch (cfgRes : Except Nat GroupConfig)
    (groupsRes : Except Nat (List String)) (project : Project) (env : Environment) : Bool :=
  match cfgRes with
  | .error _ => false
  | .ok group_config =>
    match groupsRes with
    | .error _ => false
    | .ok user_groups =>
      let required_groups := requiredGroupsAt group_config project.value env.value
      required_groups.any (fun g => user_groups.contains g)

/-! ### Token store operations (lines 160-332) -/

/-- Claim-side navigation of the nested token store: the value sitting at
tokens[project][env][username], when every key on the path is present. -/
def storeAt (store : Store) (project env username : String) : Option String :=
  ((dlookup project store).bind (dlookup env)).bind (dlookup username)

/-- get_token_from_memory (lines 160-177) over an already-loaded store:
each navigation step raises HTTP 404 when its result is falsy (a missing
key, an empty dict, or an empty token string). -/
def get_token_from_memory (store : Store) (project_name env username : String) :
    Except Nat String :=
  match dlookup project_name store with
  | none => .error 404
  | some project_data =>
    if project_data = [] then .error 404
    else
      match dlookup env project_data with
      | none => .error 404
      | some env_data =>
        if env_data = [] then .error 404
        else
          match dlookup username env_data with
          | none => .error 404
          | some token => if token = "" then .error 404 else .ok token

/-- add_token_to_file (lines 248-283): materialize the nested dicts along
the path when missing and set tokens[project][env][username] to the new
token, leaving the rest of the store as read. -/
def add_token_to_file (store : Store) (project env username token : String) : Store :=
  let project_data := (dlookup project store).getD []
  let env_data := (dlookup env project_data).getD []
  dinsert project (dinsert env (dinsert username token env_data) project_data) store

/-- get_or_create_user_token (lines 285-328).  The access-check outcome
and the result of the generate_user_token subprocess are inputs
(`genRes = .error m` embeds a generation failure with message `m`); the
returned pair threads the possibly-updated store next to the HTTP
outcome, so an unchanged first component means no write happened. -/
def get_or_create_user_token (store : Store) (project : Project) (env : Environment)
    (username : String) (hasAccess : Bool) (genRes : Except String String) :
    Store × Except Nat String :=
  match get_token_from_memory store project.value env.value username with
  | .ok token => (store, .ok token)
  | .error code =>
    if code = 404 then
      if hasAccess then
        match genRes with
        | .ok new_token =>
          (add_token_to_file store project.value env.value username new_token, .ok new_token)
        | .error _ => (store, .error 500)
      else (store, .error 404)
    else (store, .error code)

/-! ### Cached file loaders (lines 131-158 and 335-362)

Each loader owns a cached value and the mtime recorded at the last load.
The loader is embedded as a pure function of that state, the file content
currently on disk, the file's current mtime, and the force flag; it
returns the new state next to the returned data.  Python's
`TOKENS_LAST_MODIFIED and current_mtime > TOKENS_LAST_MODIFIED` guard
tests the recorded mtime for truthiness, so `None` and `0` both fail it. -/

def truthyMtime : Option Nat → Bool
  | none => false
  | some t => t ≠ 0

/-- Cache state of load_tokens_data: TOKENS_DATA and
TOKENS_LAST_MODIFIED (lines 107-112). -/
structure TokensCache where
  data : Option Store
  lastModified : Option Nat
deriving DecidableEq, Repr

/-- load_tokens_data (lines 131-158) for an existing, readable file. -/
def load_tokens_data (st : TokensCache) (fileData : Store) (currentMtime : Nat)
    (force_reload : Bool) : TokensCache × Store :=
  if st.data.isNone || force_reload ||
      (truthyMtime st.lastModified && decide (st.lastModified.getD 0 < currentMtime)) then
    (⟨some fileData, some currentMtime⟩, fileData)
  else
    (st, st.data.getD [])

/-- Cache state of load_group_config: GROUP_CONFIG and
GROUP_CONFIG_LAST_MODIFIED (lines 107-112). -/
structure GroupConfigCache where
  data : Option GroupConfig
  lastModified : Option Nat
deriving DecidableEq, Repr

/-- load_group_config (lines 335-362) for an existing, readable file. -/
def load_group_config (st : GroupConfigCache) (fileData : GroupConfig) (currentMtime : Nat)
    (force_reload : Bool) : GroupConfigCache × GroupConfig :=
  if st.data.isNone || force_reload ||
      (truthyMtime st.lastModified && decide (st.lastModified.getD 0 < currentMtime)) then
    (⟨some fileData, some currentMtime⟩, fileData)
  else
    (st, st.data.getD ⟨none⟩)

/-- Reload condition exactly as the C6 claim words it: the data has not
yet been loaded, a force reload is requested, or the file mtime is
strictly greater than the recorded one. -/
def specReloadCond (dataMissing : Bool) (lastModified : Option Nat)
    (currentMtime : Nat) (force : Bool) : Prop :=
  dataMissing = true ∨ force = true ∨ ∃ t, lastModified = some t ∧ t < currentMtime

/-- Reload condition as the code implements it: the truthiness test on
the recorded mtime additionally requires it to be nonzero. -/
def codeReloadCond (dataMissing : Bool) (lastModified : Option Nat)
    (currentMtime : Nat) (force : Bool) : Prop :=
  dataMissing = true ∨ force = true ∨
    ∃ t, lastModified = some t ∧ t ≠ 0 ∧ t < currentMtime

/-- The C6 claim specialized to the tokens loader: reload in exactly the
claimed cases, otherwise return the cache unchanged. -/
def tokensLoaderMatchesClaim : Prop :=
  ∀ st fileData currentMtime force,
    (specReloadCond st.data.isNone st.lastModified currentMtime force →
      load_tokens_data st fileData currentMtime force =
        (⟨some fileData, some currentMtime⟩, fileData)) ∧
    (¬ specReloadCond st.data.isNone st.lastModified currentMtime force →
      load_tokens_data st fileData currentMtime force = (st, st.data.getD []))

/-- The C6 claim specialized to the group-config loader. -/
def groupLoaderMatchesClaim : Prop :=
  ∀ st fileData currentMtime force,
    (specReloadCond st.data.isNone st.lastModified currentMtime force →
      load_group_config st fileData currentMtime force =
        (⟨some fileData, some currentMtime⟩, fileData)) ∧
    (¬ specReloadCond st.data.isNone st.lastModified currentMtime force →
      load_group_config st fileData currentMtime force = (st, st.data.getD ⟨none⟩))

/-! ### Available-user listing (lines 179-202) -/

/-- The username-collecting loops of get_available_users_from_memory
(lines 184-197): the usernames of every environment dict reached through
the optionally filtered project and environment keys, duplicates
included. -/
def collectedUsers (tokens_data : Store) (project : Option Project)
    (env : Option Environment) : List String :=
  let projects_to_check :=
    match project with
    | some p => [p.value]
    | none => tokens_data.map Prod.fst
  projects_to_check.flatMap (fun project_name =>
    let project_data := (dlookup project_name tokens_data).getD []
    let envs_to_check :=
      match env with
      | some e => [e.value]
      | none => project_data.map Prod.fst
    envs_to_check.flatMap (fun env_name =>
      ((dlookup env_name project_data).getD []).map Prod.fst))

/-- get_available_users_from_memory (lines 179-202): the result of
load_tokens_data comes in as an `Except` value, and any failure there is
swallowed into an empty list by the catch-all at lines 201-202.  The
Python set of usernames followed by `sorted` is embedded as
`List.toFinset` followed by `Finset.sort`. -/
def get_available_users_from_memory (loadRes : Except Nat Store)
    (project : Option Project) (env : Option Environment) : List String :=
  match loadRes with
  | .error _ => []
  | .ok tokens_data =>
    (collectedUsers tokens_data project env).toFinset.sort (· ≤ ·)

/-- Claim-side reading of the optional filters: a concrete (project, env)
name pair is selected when each supplied filter pins the corresponding
name to its enum value. -/
def selectedBy (project : Option Project) (env : Option Environment)
    (p e : String) : Prop :=
  (∀ pf, project = some pf → p = pf.value) ∧ (∀ ef, env = some ef → e = ef.value)

/-- Claim-side navigation to the environment dict of a (project, env)
name pair, empty when a key is missing. -/
def envMapAtPair (store : Store) (p e : String) : EnvMap :=
  (dlookup e ((dlookup p store).getD [])).getD []

/-! ### Endpoint models (lines 711-861)

The three session endpoints are embedded as functions of the outcomes of
the calls they make.  `Except Nat α` models a step that either returns
normally or raises an HTTPException with the given status;
`StepResult α` additionally has `.exc` for a non-HTTP exception carrying
`str(e)`.  An endpoint returns `.error c` when it lets an HTTPException
with status `c` escape, and `.ok body` when it answers with a response
body.  The launch endpoint also returns the list of external calls it
performed, in order, so that claims about whether and when
validate_node_selection runs are statements about the trace. -/

inductive StepResult (α : Type) : Type
  | ok (a : α)
  | httpExc (status : Nat)
  | exc (msg : String)
deriving DecidableEq, Repr

inductive Event : Type
  | validate (node : String)
  | launchCall
deriving DecidableEq, Repr

/-- Python truthiness of an optional string (None and "" are falsy). -/
def truthyOptStr : Option String → Bool
  | none => false
  | some s => s ≠ ""

/-- The node-selection normalization of launch_session_endpoint lines
730-739: PROJECT1 defaults a falsy node_selection to "N"; PROJECT2
discards whatever was supplied. -/
def final_node_selection (project : Project) (node_selection : Option String) :
    Option String :=
  let f := node_selection
  let f := if project = .PROJECT1 && !truthyOptStr node_selection then some "N" else f
  if project = .PROJECT2 then none else f

/-- Abstract response of the external launch API: the url under
result.url when the response has the expected shape, and the raw text
used for str(response_data) otherwise. -/
structure LaunchApiResp where
  resultUrl : Option String
  raw : String
deriving DecidableEq, Repr

structure LaunchSessionResponse where
  success : Bool
  message : String
  session_url : Option String
  session_name : Option String
  error : Option String
deriving DecidableEq, Repr

/-- launch_session_endpoint (lines 711-779).  Arguments: the
check_user_access_for_launch outcome, environment and project, the
caller-supplied node_selection, the get_or_create_user_token outcome, the
validate_node_selection outcome (consulted only if validation runs), the
external launch-API outcome, and the session name the launch produced. -/
def launch_session_endpoint (hasAccess : Bool) (env : Environment) (project : Project)
    (node_selection : Option String) (tokenRes : Except Nat String)
    (validateRes : Except Nat Unit) (apiRes : StepResult LaunchApiResp)
    (actual_session_name : String) :
    Except Nat LaunchSessionResponse × List Event :=
  if !hasAccess then (.error 403, [])
  else
    match tokenRes with
    | .error c => (.error c, [])
    | .ok _token =>
      match get_base_url env project with
      | .error c => (.error c, [])
      | .ok base_url =>
        let final := final_node_selection project node_selection
        let doValidate := project = Project.PROJECT1 && truthyOptStr final
        let preEvents := if doValidate then [Event.validate (final.getD "")] else []
        if doValidate && (match validateRes with | .error _ => true | .ok _ => false) then
          match validateRes with
          | .error c => (.error c, preEvents)
          | .ok _ => (.error 500, preEvents)
        else
          let events := preEvents ++ [Event.launchCall]
          match apiRes with
          | .httpExc c => (.error c, events)
          | .exc m =>
            (.ok ⟨false, "Failed to launch session", none, none, some m⟩, events)
          | .ok resp =>
            match resp.resultUrl with
            | some url =>
              (.ok ⟨true, "Session launched successfully",
                some (format_base_url base_url ++ url), some actual_session_name, none⟩, events)
            | none =>
              (.ok ⟨false, "Unexpected response format from external API",
                none, none, some resp.raw⟩, events)

/-- Abstract response of the external get-session API: the session list
under result.sessions when the response has the expected shape, and the
raw text used for the error field otherwise. -/
structure SessionsApiResp where
  resultSessions : Option (List SessionInfo)
  raw : String
deriving DecidableEq, Repr

structure GetSessionsResponse where
  success : Bool
  message : String
  sessions : List SessionInfo
  error : Option String
deriving DecidableEq, Repr

/-- get_sessions_endpoint (lines 781-820). -/
def get_sessions_endpoint (tokenRes : Except Nat String) (env : Environment)
    (project : Project) (apiRes : StepResult SessionsApiResp) :
    Except Nat GetSessionsResponse :=
  match tokenRes with
  | .error c => .error c
  | .ok _token =>
    match get_base_url env project with
    | .error c => .error c
    | .ok _base_url =>
      match apiRes with
      | .httpExc c => .error c
      | .exc m => .ok ⟨false, "Failed to get sessions", [], some m⟩
      | .ok resp =>
        match resp.resultSessions with
        | some sessions =>
          .ok ⟨true, "Found " ++ toString sessions.length ++ " sessions", sessions, none⟩
        | none =>
          .ok ⟨false, "No sessions found or unexpected response format", [], some resp.raw⟩

structure StopSessionResponse where
  success : Bool
  message : String
  stopped_sessions : List String
  error : Option String
deriving DecidableEq, Repr

/-- stop_session_endpoint (lines 822-861).  The external stop API result
is abstracted to whether the returned response_data is truthy. -/
def stop_session_endpoint (tokenRes : Except Nat String) (env : Environment)
    (project : Project) (session_ids : List String) (apiRes : StepResult Bool) :
    Except Nat StopSessionResponse :=
  match tokenRes with
  | .error c => .error c
  | .ok _token =>
    match get_base_url env project with
    | .error c => .error c
    | .ok _base_url =>
      match apiRes with
      | .httpExc c => .error c
      | .exc m => .ok ⟨false, "Failed to stop sessions", [], some m⟩
      | .ok truthy =>
        if truthy then
          .ok ⟨true, "Successfully stopped " ++ toString session_ids.length ++ " sessions",
            session_ids, none⟩
        else
          .ok ⟨false, "Empty response from external API", [], some "No response data received"⟩

/-- The C5 claim for the launch endpoint: whatever the step outcomes, the
endpoint answers with a response body instead of letting an exception
escape as an HTTP error. -/
def launchAlwaysAnswersBody : Prop :=
  ∀ hasAccess env project node_selection tokenRes validateRes apiRes actual_session_name,
    ∃ body events,
      launch_session_endpoint hasAccess env project node_selection tokenRes validateRes
        apiRes actual_session_name = (.ok body, events)

/-- The C5 claim for the list endpoint. -/
def sessionsAlwaysAnswersBody : Prop :=
  ∀ tokenRes env project apiRes,
    ∃ body, get_sessions_endpoint tokenRes env project apiRes = .ok body

/-- The C5 claim for the stop endpoint. -/
def stopAlwaysAnswersBody : Prop :=
  ∀ tokenRes env project session_ids apiRes,
    ∃ body, stop_session_endpoint tokenRes env project session_ids apiRes = .ok body

/-! ### Demonstration inputs used by witnesses -/

/-- Demonstration session list for the C1 witness: numbers 1 and 3 are
taken, one name does not match the pattern, so the next number is 2. -/
def demoSessions : List SessionInfo :=
  [⟨"a1", "u1", "JupyterLab Session 1", "JupyterLab Session 1"⟩,
   ⟨"a3", "u3", "JupyterLab Session 3", "JupyterLab Session 3"⟩,
   ⟨"a9", "u9", "my notes", "my notes"⟩]

/-- Demonstration group config for the C2 witness. -/
def demoGroupConfig : GroupConfig :=
  ⟨some [("PROJECT1", [("DEV", ⟨some (.glist ["grp1", "grp2"])⟩)])]⟩

/-- Demonstration token store used by the C4 and C3 witnesses. -/
def demoStore : Store := [("PROJECT1", [("DEV", [("alice", "tok123")])])]

/-! ## Theorems -/

/-! ### C1: the generated session number is the least unused one -/

theorem length_filter_ge_succ_le (l : List Nat) (n : Nat) :
    (l.filter (fun m => n + 1 ≤ m)).length ≤ (l.filter (fun m => n ≤ m)).length := by
  induction l with
  | nil => simp
  | cons a t ih =>
    by_cases h₁ : n + 1 ≤ a <;> by_cases h₂ : n ≤ a <;>
      simp [List.filter_cons, h₁, h₂] <;> omega

theorem length_filter_ge_succ_lt (l : List Nat) (n : Nat) (h : n ∈ l) :
    (l.filter (fun m => n + 1 ≤ m)).length < (l.filter (fun m => n ≤ m)).length := by
  induction l with
  | nil => cases h
  | cons a t ih =>
    rcases List.mem_cons.mp h with rfl | hmem
    · have h₁ : ¬ n + 1 ≤ n := by omega
      have hle := length_filter_ge_succ_le t n
      simp [List.filter_cons, h₁]
      omega
    · have step := ih hmem
      by_cases h₁ : n + 1 ≤ a <;> by_cases h₂ : n ≤ a <;>
        simp [List.filter_cons, h₁, h₂] <;> omega

theorem whileNext_spec (used : List Nat) (fuel n : Nat)
    (h : (used.filter (fun m => n ≤ m)).length < fuel) :
    whileNext used fuel n ∉ used ∧ n ≤ whileNext used fuel n ∧
      ∀ m, n ≤ m → m < whileNext used fuel n → m ∈ used := by
  induction fuel generalizing n with
  | zero => exact absurd h (Nat.not_lt_zero _)
  | succ fuel ih =>
    by_cases hn : n ∈ used
    · have hlt := length_filter_ge_succ_lt used n hn
      have hfuel : (used.filter (fun m => n + 1 ≤ m)).length < fuel :=
        Nat.lt_of_lt_of_le hlt (Nat.lt_succ_iff.mp h)
      have hrec := ih (n + 1) hfuel
      have hstep : whileNext used (fuel + 1) n = whileNext used fuel (n + 1) := by
        simp [whileNext, hn]
      rw [hstep]
      refine ⟨hrec.1, Nat.le_of_succ_le hrec.2.1, ?_⟩
      intro m hm₁ hm₂
      rcases Nat.eq_or_lt_of_le hm₁ with rfl | hlt₂
      · exact hn
      · exact hrec.2.2 m hlt₂ hm₂
    · have hstep : whileNext used (fuel + 1) n = n := by simp [whileNext, hn]
      rw [hstep]
      exact ⟨hn, Nat.le_refl n, fun m hm₁ hm₂ => absurd (Nat.lt_of_le_of_lt hm₁ hm₂)
        (Nat.lt_irrefl n)⟩

theorem mem_usedNumbers (existing_sessions : List SessionInfo) (k : Nat) :
    k ∈ usedNumbers existing_sessions ↔
      ∃ s ∈ existing_sessions, parseSessionNumber s.display_name = some k := by
  simp [usedNumbers, List.mem_filterMap]

/-- Claim C1: get_next_available_session_number returns the least positive
integer n such that no existing session's display name matches the
anchored pattern JupyterLab Session m with captured number equal to n;
names matching the pattern block their captured number and all other
names are ignored (they put nothing into the used set). -/
theorem claim_C1 (existing_sessions : List SessionInfo) :
    IsLeast {n : Nat | 1 ≤ n ∧
        ∀ s ∈ existing_sessions, parseSessionNumber s.display_name ≠ some n}
      (get_next_available_session_number existing_sessions) := by
  have hfuel : ((usedNumbers existing_sessions).filter
      (fun m => 1 ≤ m)).length < (usedNumbers existing_sessions).length + 1 :=
    Nat.lt_succ_of_le (List.length_filter_le _ _)
  have hspec := whileNext_spec (usedNumbers existing_sessions)
    ((usedNumbers existing_sessions).length + 1) 1 hfuel
  constructor
  · refine ⟨hspec.2.1, ?_⟩
    intro s hs hparse
    exact hspec.1 ((mem_usedNumbers existing_sessions _).mpr ⟨s, hs, hparse⟩)
  · intro b hb
    by_contra hlt
    have hb_lt : b < get_next_available_session_number existing_sessions :=
      Nat.lt_of_not_le (fun hc => hlt hc)
    have hb_used := hspec.2.2 b hb.1 hb_lt
    rcases (mem_usedNumbers existing_sessions b).mp hb_used with ⟨s, hs, hparse⟩
    exact hb.2 s hs hparse

/-- Witness for C1: on the demonstration list the function returns 2, and
2 is the least admissible number. -/
theorem claim_C1_witness :
    get_next_available_session_number demoSessions = 2 ∧
      IsLeast {n : Nat | 1 ≤ n ∧
          ∀ s ∈ demoSessions, parseSessionNumber s.display_name ≠ some n} 2 := by
  have e : get_next_available_session_number demoSessions = 2 := by decide
  exact ⟨e, e ▸ claim_C1 demoSessions⟩

/-! ### C2: group policy gates access by shared group membership -/

/-- Claim C2: with the group config loaded and the groups command answering,
access is granted exactly when the user's group list meets the
required-groups entry for the project and environment (a bare string
entry counting as a one-element list); an entry that normalizes to the
empty list grants access to nobody. -/
theorem claim_C2 (cfg : GroupConfig) (user_groups : List String)
    (project : Project) (env : Environment) :
    (check_user_access_for_launch (.ok cfg) (.ok user_groups) project env = true ↔
      ∃ g ∈ requiredGroupsAt cfg project.value env.value, g ∈ user_groups) ∧
    (requiredGroupsAt cfg project.value env.value = [] →
      check_user_access_for_launch (.ok cfg) (.ok user_groups) project env = false) := by
  constructor
  · simp [check_user_access_for_launch, List.any_eq_true]
  · intro hreq
    simp [check_user_access_for_launch, hreq]

/-- Witness for C2: a user in grp2 is granted DEV access to PROJECT1
under the demonstration config, and under a config with no projects at
all (so an empty required-groups entry) the same user is denied. -/
theorem claim_C2_witness :
    check_user_access_for_launch (.ok demoGroupConfig) (.ok ["other", "grp2"])
        .PROJECT1 .DEV = true ∧
      check_user_access_for_launch (.ok ⟨some []⟩) (.ok ["other", "grp2"])
        .PROJECT1 .DEV = false := by
  constructor
  · exact (claim_C2 demoGroupConfig ["other", "grp2"] .PROJECT1 .DEV).1.mpr
      ⟨"grp2", by decide, by decide⟩
  · exact (claim_C2 ⟨some []⟩ ["other", "grp2"] .PROJECT1 .DEV).2 (by decide)

/-! ### C9: the launch-access gate is fail-closed -/

/-- Claim C9: if loading the group configuration raises, or querying the user's
groups raises, check_user_access_for_launch answers false rather than
propagating the failure or granting access. -/
theorem claim_C9 (cfgRes : Except Nat GroupConfig)
    (groupsRes : Except Nat (List String)) (project : Project) (env : Environment)
    (c c₁ : Nat) :
    check_user_access_for_launch (.error c) groupsRes project env = false ∧
      check_user_access_for_launch cfgRes (.error c₁) project env = false := by
  refine ⟨rfl, ?_⟩
  cases cfgRes <;> rfl

/-! ### C4: token lookup answers the stored token or HTTP 404 -/

/-- Claim C4: get_token_from_memory returns a token exactly when the nested
store holds that token, non-empty, at tokens[project][env][username]; in
every other case (a missing key on the path or an empty stored value) it
raises HTTP 404. -/
theorem claim_C4 (store : Store) (project_name env username : String) :
    (∀ t, get_token_from_memory store project_name env username = .ok t ↔
      (storeAt store project_name env username = some t ∧ t ≠ "")) ∧
    (get_token_from_memory store project_name env username = .error 404 ↔
      (storeAt store project_name env username = none ∨
        storeAt store project_name env username = some "")) := by
  cases hp : dlookup project_name store with
  | none => simp [get_token_from_memory, storeAt, hp]
  | some project_data =>
    by_cases hpe : project_data = []
    · subst hpe
      simp [get_token_from_memory, storeAt, hp, dlookup]
    · cases he : dlookup env project_data with
      | none => simp [get_token_from_memory, storeAt, hp, hpe, he]
      | some env_data =>
        by_cases hee : env_data = []
        · subst hee
          simp [get_token_from_memory, storeAt, hp, hpe, he, dlookup]
        · cases hu : dlookup username env_data with
          | none => simp [get_token_from_memory, storeAt, hp, hpe, he, hee, hu]
          | some token =>
            by_cases ht : token = "" <;>
              simp [get_token_from_memory, storeAt, hp, hpe, he, hee, hu, ht]

/-- Witness for C4: in the demonstration store the lookup finds the token
of alice in PROJECT1/DEV and raises 404 for the unpopulated UAT
environment. -/
theorem claim_C4_witness :
    get_token_from_memory demoStore "PROJECT1" "DEV" "alice" = .ok "tok123" ∧
      get_token_from_memory demoStore "PROJECT1" "UAT" "alice" = .error 404 := by
  constructor
  · exact ((claim_C4 demoStore "PROJECT1" "DEV" "alice").1 "tok123").mpr (by decide)
  · exact (claim_C4 demoStore "PROJECT1" "UAT" "alice").2.mpr (by decide)

/-! ### C7: add_token_to_file updates one triple and frames the rest -/

theorem dlookup_dinsert_self {α : Type} (k : String) (v : α) (l : List (String × α)) :
    dlookup k (dinsert k v l) = some v := by
  induction l with
  | nil => simp [dinsert, dlookup]
  | cons hd tl ih =>
    obtain ⟨k₂, v₂⟩ := hd
    by_cases hk : k₂ = k <;> simp_all [dinsert, dlookup]

theorem dlookup_dinsert_ne {α : Type} (k k₁ : String) (v : α) (l : List (String × α))
    (h : k₁ ≠ k) : dlookup k₁ (dinsert k v l) = dlookup k₁ l := by
  have h₁ : ¬(k = k₁) := fun hc => h hc.symm
  induction l with
  | nil => simp [dinsert, dlookup, h₁]
  | cons hd tl ih =>
    obtain ⟨k₂, v₂⟩ := hd
    by_cases hk : k₂ = k <;> by_cases hk₁ : k₂ = k₁ <;>
      simp_all [dinsert, dlookup]

/-- Claim C7: after add_token_to_file, the value sitting at the written
(project, env, username) triple is the new token, and the value at every
other triple is exactly what the previous store held there. -/
theorem claim_C7 (store : Store) (project env username token : String)
    (p e u : String) :
    storeAt (add_token_to_file store project env username token) p e u =
      if p = project ∧ e = env ∧ u = username then some token
      else storeAt store p e u := by
  by_cases hp : p = project
  · subst hp
    by_cases he : e = env
    · subst he
      by_cases hu : u = username
      · subst hu
        simp [storeAt, add_token_to_file, dlookup_dinsert_self]
      · have hu' : ¬(username = u) := fun hc => hu hc.symm
        cases hpd : dlookup p store with
        | none =>
          simp [storeAt, add_token_to_file, hpd, dlookup_dinsert_self,
            dlookup_dinsert_ne _ _ _ _ hu, hu, hu', dlookup]
        | some project_data =>
          cases hed : dlookup e project_data with
          | none =>
            simp [storeAt, add_token_to_file, hpd, hed, dlookup_dinsert_self,
              dlookup_dinsert_ne _ _ _ _ hu, hu, hu', dlookup]
          | some env_data =>
            simp [storeAt, add_token_to_file, hpd, hed, dlookup_dinsert_self,
              dlookup_dinsert_ne _ _ _ _ hu, hu, hu']
    · have he' : ¬(env = e) := fun hc => he hc.symm
      cases hpd : dlookup p store with
      | none =>
        simp [storeAt, add_token_to_file, hpd, dlookup_dinsert_self,
          dlookup_dinsert_ne _ _ _ _ he, he, he', dlookup]
      | some project_data =>
        simp [storeAt, add_token_to_file, hpd, dlookup_dinsert_self,
          dlookup_dinsert_ne _ _ _ _ he, he, he']
  · simp [storeAt, add_token_to_file, dlookup_dinsert_ne _ _ _ _ hp, hp]

/-! ### C3: lazy token acquisition -/

/-- Claim C3: when a non-empty token is stored for the triple,
get_or_create_user_token returns it and neither generates nor writes
anything; when the lookup raises 404 and the user has access, a
successfully generated token is persisted through add_token_to_file and
returned; when the lookup raises 404 and the user lacks access, the 404
is re-raised and the store is left untouched. -/
theorem claim_C3 (store : Store) (project : Project) (env : Environment)
    (username : String) (hasAccess : Bool) (genRes : Except String String) :
    (∀ token, get_token_from_memory store project.value env.value username = .ok token →
      get_or_create_user_token store project env username hasAccess genRes =
        (store, .ok token)) ∧
    (get_token_from_memory store project.value env.value username = .error 404 →
      (∀ t, genRes = .ok t → hasAccess = true →
        get_or_create_user_token store project env username hasAccess genRes =
          (add_token_to_file store project.value env.value username t, .ok t)) ∧
      (hasAccess = false →
        get_or_create_user_token store project env username hasAccess genRes =
          (store, .error 404))) := by
  constructor
  · intro token hget
    simp [get_or_create_user_token, hget]
  · intro hget
    constructor
    · intro t hgen hacc
      subst hgen hacc
      simp [get_or_create_user_token, hget]
    · intro hacc
      subst hacc
      simp [get_or_create_user_token, hget]

/-- Witness for C3: in the demonstration store the stored token of alice
comes back without touching the store; for the unpopulated UAT
environment a user with access gets a freshly generated token persisted,
and one without access gets the 404 with the store untouched. -/
theorem claim_C3_witness :
    get_or_create_user_token demoStore .PROJECT1 .DEV "alice" false (.error "boom") =
        (demoStore, .ok "tok123") ∧
      get_or_create_user_token demoStore .PROJECT1 .UAT "alice" true (.ok "newtok") =
        (add_token_to_file demoStore "PROJECT1" "UAT" "alice" "newtok", .ok "newtok") ∧
      get_or_create_user_token demoStore .PROJECT1 .UAT "alice" false (.ok "newtok") =
        (demoStore, .error 404) := by
  refine ⟨?_, ?_, ?_⟩
  · exact (claim_C3 demoStore .PROJECT1 .DEV "alice" false (.error "boom")).1
      "tok123" (by decide)
  · exact ((claim_C3 demoStore .PROJECT1 .UAT "alice" true (.ok "newtok")).2
      (by decide)).1 "newtok" rfl rfl
  · exact ((claim_C3 demoStore .PROJECT1 .UAT "alice" false (.ok "newtok")).2
      (by decide)).2 rfl

/-! ### C6: mtime-based cache invalidation -/

theorem loader_guard_iff {α : Type} (d : Option α) (lm : Option Nat) (cur : Nat)
    (force : Bool) :
    (d.isNone || force || (truthyMtime lm && decide (lm.getD 0 < cur))) = true ↔
      codeReloadCond d.isNone lm cur force := by
  cases d <;> cases lm <;> cases force <;>
    simp [truthyMtime, codeReloadCond]

/-- Counterexample for C6: with data cached and recorded mtime 0, a file
mtime of 1 is strictly newer, so the claim demands a reload, but the
truthiness guard of the code drops the comparison and the loader returns
the cache unchanged. -/
theorem claim_C6_counterexample : ¬ (tokensLoaderMatchesClaim ∧ groupLoaderMatchesClaim) := by
  intro h
  have h₁ := (h.1 ⟨some [], some 0⟩ [] 1 false).1
    (Or.inr (Or.inr ⟨0, rfl, Nat.zero_lt_one⟩))
  have h₂ : load_tokens_data ⟨some [], some 0⟩ [] 1 false = (⟨some [], some 0⟩, []) := by
    decide
  rw [h₁] at h₂
  simp at h₂

/-- Claim C6, amended: each loader re-reads the file and updates both the
cache and the recorded mtime exactly when the data is not yet loaded, a
force reload is requested, or the recorded mtime is set, nonzero, and
strictly older than the file's current mtime; in every other case it
returns the cached data unchanged. -/
theorem claim_C6 :
    (∀ (st : TokensCache) (fileData : Store) (currentMtime : Nat) (force : Bool),
      (codeReloadCond st.data.isNone st.lastModified currentMtime force →
        load_tokens_data st fileData currentMtime force =
          (⟨some fileData, some currentMtime⟩, fileData)) ∧
      (¬ codeReloadCond st.data.isNone st.lastModified currentMtime force →
        load_tokens_data st fileData currentMtime force = (st, st.data.getD []))) ∧
    (∀ (st : GroupConfigCache) (fileData : GroupConfig) (currentMtime : Nat) (force : Bool),
      (codeReloadCond st.data.isNone st.lastModified currentMtime force →
        load_group_config st fileData currentMtime force =
          (⟨some fileData, some currentMtime⟩, fileData)) ∧
      (¬ codeReloadCond st.data.isNone st.lastModified currentMtime force →
        load_group_config st fileData currentMtime force = (st, st.data.getD ⟨none⟩))) := by
  constructor
  · intro st fileData cur force
    have hg := loader_guard_iff st.data st.lastModified cur force
    constructor
    · intro hc
      have hb := hg.mpr hc
      simp [load_tokens_data, hb]
    · intro hc
      have hb : (st.data.isNone || force ||
          (truthyMtime st.lastModified && decide (st.lastModified.getD 0 < cur))) = false := by
        cases hguard : (st.data.isNone || force ||
            (truthyMtime st.lastModified && decide (st.lastModified.getD 0 < cur))) with
        | true => exact absurd (hg.mp hguard) hc
        | false => rfl
      simp [load_tokens_data, hb]
  · intro st fileData cur force
    have hg := loader_guard_iff st.data st.lastModified cur force
    constructor
    · intro hc
      have hb := hg.mpr hc
      simp [load_group_config, hb]
    · intro hc
      have hb : (st.data.isNone || force ||
          (truthyMtime st.lastModified && decide (st.lastModified.getD 0 < cur))) = false := by
        cases hguard : (st.data.isNone || force ||
            (truthyMtime st.lastModified && decide (st.lastModified.getD 0 < cur))) with
        | true => exact absurd (hg.mp hguard) hc
        | false => rfl
      simp [load_group_config, hb]

/-- Witness for C6: a first load populates each cache, and a call with
an unchanged mtime returns the tokens cache untouched. -/
theorem claim_C6_witness :
    load_tokens_data ⟨none, none⟩ [] 7 false = (⟨some [], some 7⟩, []) ∧
      load_tokens_data ⟨some [], some 5⟩ [("p", [])] 5 false = (⟨some [], some 5⟩, []) ∧
      load_group_config ⟨none, none⟩ ⟨none⟩ 7 false = (⟨some ⟨none⟩, some 7⟩, ⟨none⟩) := by
  refine ⟨?_, ?_, ?_⟩
  · exact (claim_C6.1 ⟨none, none⟩ [] 7 false).1 (Or.inl rfl)
  · refine (claim_C6.1 ⟨some [], some 5⟩ [("p", [])] 5 false).2 ?_
    rintro (h | h | ⟨t, ht, hne, hlt⟩)
    · exact absurd h (by decide)
    · exact absurd h (by decide)
    · have hts : (5 : Nat) = t := Option.some.inj ht
      omega
  · exact (claim_C6.2 ⟨none, none⟩ ⟨none⟩ 7 false).1 (Or.inl rfl)

/-! ### C8: available-user listing -/

theorem mem_keys_iff {α : Type} (k : String) (l : List (String × α)) :
    k ∈ l.map Prod.fst ↔ ∃ v, dlookup k l = some v := by
  induction l with
  | nil => simp [dlookup]
  | cons hd tl ih =>
    obtain ⟨k₂, v₂⟩ := hd
    by_cases hk : k₂ = k
    · subst hk
      simp [dlookup]
    · have hk' : ¬(k = k₂) := fun hc => hk hc.symm
      simp [dlookup, hk, hk', ih]

theorem mem_env_loop_iff (pd : ProjMap) (env : Option Environment) (u : String) :
    (∃ en ∈ (match env with
        | some e => [e.value]
        | none => pd.map Prod.fst),
        u ∈ ((dlookup en pd).getD []).map Prod.fst) ↔
      ∃ e, (∀ ef, env = some ef → e = ef.value) ∧
        u ∈ ((dlookup e pd).getD []).map Prod.fst := by
  cases env with
  | some ef =>
    simp only [List.mem_singleton]
    constructor
    · rintro ⟨en, rfl, hu⟩
      exact ⟨ef.value, fun ef₁ h => by rw [Option.some.inj h], hu⟩
    · rintro ⟨e, hsel, hu⟩
      exact ⟨e, (hsel ef rfl).symm ▸ rfl, hu⟩
  | none =>
    constructor
    · rintro ⟨en, _, hu⟩
      exact ⟨en, fun ef h => Option.noConfusion h, hu⟩
    · rintro ⟨e, _, hu⟩
      refine ⟨e, ?_, hu⟩
      cases hd : dlookup e pd with
      | none => rw [hd] at hu; simp at hu
      | some ed => exact (mem_keys_iff e pd).mpr ⟨ed, hd⟩

theorem mem_collectedUsers_iff (store : Store) (project : Option Project)
    (env : Option Environment) (u : String) :
    u ∈ collectedUsers store project env ↔
      ∃ p e, selectedBy project env p e ∧
        u ∈ (envMapAtPair store p e).map Prod.fst := by
  unfold collectedUsers
  cases project with
  | some pf =>
    simp only [List.mem_flatMap, List.mem_singleton]
    constructor
    · rintro ⟨pn, rfl, hu⟩
      rcases (mem_env_loop_iff _ env u).mp hu with ⟨e, hsel, hue⟩
      exact ⟨pf.value, e, ⟨fun pf₁ h => by rw [Option.some.inj h], hsel⟩, hue⟩
    · rintro ⟨p, e, ⟨hselp, hsele⟩, hu⟩
      refine ⟨pf.value, rfl, (mem_env_loop_iff _ env u).mpr ⟨e, hsele, ?_⟩⟩
      rw [← hselp pf rfl]
      exact hu
  | none =>
    simp only [List.mem_flatMap]
    constructor
    · rintro ⟨pn, _, hu⟩
      rcases (mem_env_loop_iff _ env u).mp hu with ⟨e, hsel, hue⟩
      exact ⟨pn, e, ⟨fun pf h => Option.noConfusion h, hsel⟩, hue⟩
    · rintro ⟨p, e, ⟨_, hsele⟩, hu⟩
      have hpk : p ∈ store.map Prod.fst := by
        cases hd : dlookup p store with
        | none =>
          rw [envMapAtPair, hd] at hu
          simp [dlookup] at hu
        | some pd => exact (mem_keys_iff p store).mpr ⟨pd, hd⟩
      exact ⟨p, hpk, (mem_env_loop_iff _ env u).mpr ⟨e, hsele, hu⟩⟩

/-- Claim C8: for a successful load the listing is sorted and duplicate-free
and holds exactly the usernames appearing under some (project,
environment) pair selected by the optional filters; any load failure
yields the empty list. -/
theorem claim_C8 (store : Store) (project : Option Project) (env : Option Environment) :
    List.Sorted (· ≤ ·) (get_available_users_from_memory (.ok store) project env) ∧
      (get_available_users_from_memory (.ok store) project env).Nodup ∧
      (∀ u, u ∈ get_available_users_from_memory (.ok store) project env ↔
        ∃ p e, selectedBy project env p e ∧
          u ∈ (envMapAtPair store p e).map Prod.fst) ∧
      (∀ c, get_available_users_from_memory (.error c) project env = []) := by
  refine ⟨?_, ?_, ?_, fun c => rfl⟩
  · exact Finset.sort_sorted _ _
  · exact Finset.sort_nodup _ _
  · intro u
    rw [show get_available_users_from_memory (.ok store) project env =
        (collectedUsers store project env).toFinset.sort (· ≤ ·) from rfl]
    rw [Finset.mem_sort, List.mem_toFinset]
    exact mem_collectedUsers_iff store project env u

/-! ### C5 and C10: endpoint error handling and node selection -/

theorem get_base_url_ok (env : Environment) (project : Project) :
    ∃ u, get_base_url env project = .ok u := by
  cases env <;> cases project <;> exact ⟨_, rfl⟩

theorem truthy_final_P1 (ns : Option String) :
    truthyOptStr (final_node_selection .PROJECT1 ns) = true := by
  cases ns with
  | none => decide
  | some s =>
    by_cases hs : s = ""
    · subst hs; decide
    · simp [final_node_selection, truthyOptStr, hs]

theorem final_P2 (ns : Option String) : final_node_selection .PROJECT2 ns = none := by
  simp [final_node_selection]

/-- Counterexample for C5: with access denied the launch endpoint raises
HTTP 403 instead of answering with a generic failure body, so the three
session endpoints do not handle every failure by catching it. -/
theorem claim_C5_counterexample :
    ¬ (launchAlwaysAnswersBody ∧ sessionsAlwaysAnswersBody ∧ stopAlwaysAnswersBody) := by
  intro h
  obtain ⟨body, events, hb⟩ :=
    h.1 false .DEV .PROJECT1 none (.ok "tok") (.ok ()) (.exc "boom") "nm"
  have hv : launch_session_endpoint false .DEV .PROJECT1 none (.ok "tok") (.ok ())
      (.exc "boom") "nm" = (.error 403, []) := rfl
  rw [hv] at hb
  simp at hb

/-- Claim C5, amended: each session endpoint catches only non-HTTP failures
of the external API call and answers those with a generic failure body;
an HTTPException raised by any step — denied access, token lookup or
generation, node validation, or the external request itself — escapes
the endpoint with its own status code. -/
theorem claim_C5_amended :
    (∀ env project ns tr vr ar nm,
      (launch_session_endpoint false env project ns tr vr ar nm).1 = .error 403) ∧
    (∀ env project ns c vr ar nm,
      (launch_session_endpoint true env project ns (.error c) vr ar nm).1 = .error c) ∧
    (∀ env ns tok c ar nm,
      (launch_session_endpoint true env .PROJECT1 ns (.ok tok) (.error c) ar nm).1 =
        .error c) ∧
    (∀ env project ns tok c nm,
      (launch_session_endpoint true env project ns (.ok tok) (.ok ()) (.httpExc c) nm).1 =
        .error c) ∧
    (∀ env project ns tok m nm,
      (launch_session_endpoint true env project ns (.ok tok) (.ok ()) (.exc m) nm).1 =
        .ok ⟨false, "Failed to launch session", none, none, some m⟩) ∧
    (∀ env project ns tok raw nm,
      (launch_session_endpoint true env project ns (.ok tok) (.ok ())
          (.ok ⟨none, raw⟩) nm).1 =
        .ok ⟨false, "Unexpected response format from external API", none, none, some raw⟩) ∧
    (∀ env project c ar, get_sessions_endpoint (.error c) env project ar = .error c) ∧
    (∀ env project tok c,
      get_sessions_endpoint (.ok tok) env project (.httpExc c) = .error c) ∧
    (∀ env project tok m,
      get_sessions_endpoint (.ok tok) env project (.exc m) =
        .ok ⟨false, "Failed to get sessions", [], some m⟩) ∧
    (∀ env project c ids ar,
      stop_session_endpoint (.error c) env project ids ar = .error c) ∧
    (∀ env project tok ids c,
      stop_session_endpoint (.ok tok) env project ids (.httpExc c) = .error c) ∧
    (∀ env project tok ids m,
      stop_session_endpoint (.ok tok) env project ids (.exc m) =
        .ok ⟨false, "Failed to stop sessions", [], some m⟩) := by
  refine ⟨fun _ _ _ _ _ _ _ => rfl, fun _ _ _ _ _ _ _ => rfl, ?_, ?_, ?_, ?_,
    fun _ _ _ _ => rfl, ?_, ?_, fun _ _ _ _ _ => rfl, ?_, ?_⟩
  · intro env ns tok c ar nm
    obtain ⟨u, hu⟩ := get_base_url_ok env .PROJECT1
    simp [launch_session_endpoint, hu, truthy_final_P1]
  · intro env project ns tok c nm
    obtain ⟨u, hu⟩ := get_base_url_ok env project
    cases project <;>
      simp [launch_session_endpoint, hu, truthy_final_P1, final_P2, truthyOptStr]
  · intro env project ns tok m nm
    obtain ⟨u, hu⟩ := get_base_url_ok env project
    cases project <;>
      simp [launch_session_endpoint, hu, truthy_final_P1, final_P2, truthyOptStr]
  · intro env project ns tok raw nm
    obtain ⟨u, hu⟩ := get_base_url_ok env project
    cases project <;>
      simp [launch_session_endpoint, hu, truthy_final_P1, final_P2, truthyOptStr]
  · intro env project tok c
    obtain ⟨u, hu⟩ := get_base_url_ok env project
    simp [get_sessions_endpoint, hu]
  · intro env project tok m
    obtain ⟨u, hu⟩ := get_base_url_ok env project
    simp [get_sessions_endpoint, hu]
  · intro env project tok ids c
    obtain ⟨u, hu⟩ := get_base_url_ok env project
    simp [stop_session_endpoint, hu]
  · intro env project tok ids m
    obtain ⟨u, hu⟩ := get_base_url_ok env project
    simp [stop_session_endpoint, hu]

theorem launch_P2_trace (hasAccess : Bool) (env : Environment) (ns : Option String)
    (tokenRes : Except Nat String) (vr : Except Nat Unit)
    (apiRes : StepResult LaunchApiResp) (nm : String) :
    (launch_session_endpoint hasAccess env .PROJECT2 ns tokenRes vr apiRes nm).2 = [] ∨
      (launch_session_endpoint hasAccess env .PROJECT2 ns tokenRes vr apiRes nm).2 =
        [Event.launchCall] := by
  cases hasAccess with
  | false => exact Or.inl rfl
  | true =>
    cases tokenRes with
    | error c => exact Or.inl rfl
    | ok tok =>
      obtain ⟨u, hu⟩ := get_base_url_ok env .PROJECT2
      cases apiRes with
      | httpExc c => simp [launch_session_endpoint, hu, final_P2, truthyOptStr]
      | exc m => simp [launch_session_endpoint, hu, final_P2, truthyOptStr]
      | ok resp =>
        obtain ⟨ru, raw⟩ := resp
        cases ru <;> simp [launch_session_endpoint, hu, final_P2, truthyOptStr]

/-- Claim C10: for PROJECT2 the endpoint's behavior is independent of the
supplied node_selection and of the validator, no validate call shows up
in its trace, and the run equals the one with node_selection absent; for
PROJECT1 with node_selection absent the default node N is filled in and
validated before the launch call, and a validation failure propagates
with no launch call made. -/
theorem claim_C10 :
    (∀ hasAccess env ns tokenRes vr₁ vr₂ apiRes nm,
      launch_session_endpoint hasAccess env .PROJECT2 ns tokenRes vr₁ apiRes nm =
        launch_session_endpoint hasAccess env .PROJECT2 none tokenRes vr₂ apiRes nm) ∧
    (∀ hasAccess env ns tokenRes vr apiRes nm node,
      Event.validate node ∉
        (launch_session_endpoint hasAccess env .PROJECT2 ns tokenRes vr apiRes nm).2) ∧
    final_node_selection .PROJECT1 none = some "N" ∧
    (∀ env tok apiRes nm,
      (launch_session_endpoint true env .PROJECT1 none (.ok tok) (.ok ()) apiRes nm).2 =
        [Event.validate "N", Event.launchCall]) ∧
    (∀ env tok c apiRes nm,
      (launch_session_endpoint true env .PROJECT1 none (.ok tok) (.error c) apiRes nm).2 =
          [Event.validate "N"] ∧
        (launch_session_endpoint true env .PROJECT1 none (.ok tok) (.error c)
            apiRes nm).1 = .error c) := by
  refine ⟨?_, ?_, by decide, ?_, ?_⟩
  · intro hasAccess env ns tokenRes vr₁ vr₂ apiRes nm
    cases hasAccess with
    | false => rfl
    | true =>
      cases tokenRes with
      | error c => rfl
      | ok tok =>
        obtain ⟨u, hu⟩ := get_base_url_ok env .PROJECT2
        simp [launch_session_endpoint, hu, final_P2, truthyOptStr]
  · intro hasAccess env ns tokenRes vr apiRes nm node
    rcases launch_P2_trace hasAccess env ns tokenRes vr apiRes nm with hv | hv <;>
      simp [hv]
  · intro env tok apiRes nm
    obtain ⟨u, hu⟩ := get_base_url_ok env .PROJECT1
    cases apiRes with
    | httpExc c => simp [launch_session_endpoint, hu, truthy_final_P1, final_node_selection, truthyOptStr]
    | exc m => simp [launch_session_endpoint, hu, truthy_final_P1, final_node_selection, truthyOptStr]
    | ok resp =>
      obtain ⟨ru, raw⟩ := resp
      cases ru <;>
        simp [launch_session_endpoint, hu, truthy_final_P1, final_node_selection, truthyOptStr]
  · intro env tok c apiRes nm
    obtain ⟨u, hu⟩ := get_base_url_ok env .PROJECT1
    constructor <;>
      simp [launch_session_endpoint, hu, truthy_final_P1, final_node_selection, truthyOptStr]

/-- Witness for C10: a PROJECT2 launch with an explicit node and a
failing validator equals the same launch with neither, its trace has no
validate call, and a PROJECT1 launch without node_selection validates
the default node N before calling launch. -/
theorem claim_C10_witness :
    launch_session_endpoint true .DEV .PROJECT2 (some "nodeX") (.ok "tok") (.error 400)
        (.ok ⟨none, "r"⟩) "nm" =
      launch_session_endpoint true .DEV .PROJECT2 none (.ok "tok") (.ok ())
        (.ok ⟨none, "r"⟩) "nm" ∧
    Event.validate "nodeX" ∉ (launch_session_endpoint true .DEV .PROJECT2 (some "nodeX")
        (.ok "tok") (.error 400) (.ok ⟨none, "r"⟩) "nm").2 ∧
    (launch_session_endpoint true .DEV .PROJECT1 none (.ok "tok") (.ok ())
        (.ok ⟨none, "r"⟩) "nm").2 = [Event.validate "N", Event.launchCall] := by
  refine ⟨?_, ?_, ?_⟩
  · exact claim_C10.1 true .DEV (some "nodeX") (.ok "tok") (.error 400) (.ok ())
      (.ok ⟨none, "r"⟩) "nm"
  · exact claim_C10.2.1 true .DEV (some "nodeX") (.ok "tok") (.error 400)
      (.ok ⟨none, "r"⟩) "nm" "nodeX"
  · exact claim_C10.2.2.2.1 .DEV "tok" (.ok ⟨none, "r"⟩) "nm"

end PositApi

